import Mathlib

/-!
Shallow embedding of the RAG chatbot backend core
(`src/backend/src/services/rag_service.py`, `document_service.py`,
`embedding_service.py`, `src/backend/src/core/vector_store.py`).

External collaborators (the Cohere embedding API, the Qdrant backend and the
LiteLLM completion API) are modelled as oracle parameters: a function or an
`Except`-valued outcome standing for the single remote call the code makes.
Python dictionaries with a varying key set are modelled as association lists
of `MetaVal` values; Python floats only ever carry scores that are stored and
compared, never computed with, so they are modelled as rationals.
-/

namespace RagChat

/-- A value stored in a metadata dictionary: the code only ever stores
strings and integers there. -/
inductive MetaVal where
  | s (v : String)
  | i (v : Int)
deriving DecidableEq

/-- A Python dict used as metadata: association list, first binding wins. -/
abbrev Meta := List (String × MetaVal)

/-- `d.get(k, default)` for a string-valued entry. -/
def metaGetStr (m : Meta) (k : String) (dflt : String) : String :=
  match m.lookup k with
  | some (MetaVal.s v) => v
  | _ => dflt

/-- `d.get(k, default)` for an integer-valued entry. -/
def metaGetInt (m : Meta) (k : String) (dflt : Int) : Int :=
  match m.lookup k with
  | some (MetaVal.i v) => v
  | _ => dflt

/-- A context item as built by `RAGService.retrieve_context`: the dict
`{document_id, content, metadata, similarity_score}`. -/
structure ContextItem where
  document_id : String
  content : String
  metadata : Meta
  similarity_score : ℚ
deriving DecidableEq

/-- A point as returned by the Qdrant backend from `query_points`:
its id, the payload fields that `VectorStore.search` reads
(`payload.get("content", "")` and `payload.get("metadata", {})`),
and its score. -/
structure QPoint where
  id : String
  content : String
  metadata : Meta
  score : ℚ
deriving DecidableEq

/-- A search hit as built by `VectorStore.search`: the dict
`{id, content, metadata, similarity_score}`. -/
structure SearchHit where
  id : String
  content : String
  metadata : Meta
  similarity_score : ℚ
deriving DecidableEq

/-- `VectorStore.search` (`vector_store.py:159-182`): on backend success it
maps each returned point to a result dict; on any backend failure it catches
the exception and returns the empty list.  The backend call
`query_points(query=query_embedding, limit=limit)` is the oracle `backend`,
applied to the embedding and the limit the code passes. -/
def vs_search (queryEmbedding : List Int) (lim : Int)
    (backend : List Int → Int → Except String (List QPoint)) : List SearchHit :=
  match backend queryEmbedding lim with
  | Except.error _ => []
  | Except.ok pts =>
      pts.map (fun p =>
        { id := p.id
          content := p.content
          metadata := p.metadata
          similarity_score := p.score })

/-- Python truthiness of an `Optional[str]`: `None` and `""` are falsy. -/
def strTruthy : Option String → Bool
  | none => false
  | some s => s ≠ ""

/-- Mapping of one search result to a context item, from
`rag_service.py:160-170`. -/
def to_context_item (r : SearchHit) : ContextItem :=
  { document_id := metaGetStr r.metadata "document_id" ""
    content := r.content
    metadata :=
      [("title", MetaVal.s (metaGetStr r.metadata "title" "")),
       ("source_type", MetaVal.s (metaGetStr r.metadata "source_type" "")),
       ("chunk_order", MetaVal.i (metaGetInt r.metadata "chunk_order" 0))]
    similarity_score := r.similarity_score }

/-- The default of the `limit` parameter of `retrieve_context`
(`rag_service.py:131`). -/
def default_limit : Int := 5

/-- `RAGService.retrieve_context` (`rag_service.py:131-175`).
The Cohere embedding call is the oracle `embedO` (an exception from it is
caught by the surrounding `try`, yielding `[]`); the Qdrant backend inside
`VectorStore.search` is the oracle `backendO`, a function of the embedding
and the limit the code passes through. -/
def retrieve_context (query mode : String) (selected_text : Option String)
    (lim : Int) (embedO : String → Except String (List Int))
    (backendO : List Int → Int → Except String (List QPoint)) : List ContextItem :=
  if mode = "selected_text" ∧ strTruthy selected_text = true then
    [{ document_id := "selected_text"
       content := selected_text.getD ""
       metadata := [("source_type", MetaVal.s "USER_SELECTION")]
       similarity_score := 1 }]
  else
    match embedO query with
    | Except.error _ => []
    | Except.ok qemb => (vs_search qemb lim backendO).map to_context_item

/-- The result of the LiteLLM completion call: either a completion whose
message content may be absent, or a raised provider exception with its
string rendering. -/
inductive LLMResult where
  | ok (content : Option String)
  | error (e : String)
deriving DecidableEq

/-- One `{role, content}` chat message. -/
structure ChatMsg where
  role : String
  content : String
deriving DecidableEq

/-- Substring search on character lists: does `needle` occur contiguously
in `hay`? -/
def infixSearch (needle : List Char) : List Char → Bool
  | [] => needle.isPrefixOf []
  | c :: rest => needle.isPrefixOf (c :: rest) || infixSearch needle rest

/-- Python substring test `needle in hay`. -/
def pyIn (needle hay : String) : Bool :=
  infixSearch needle.toList hay.toList

/-- Python `s.lower()`, characterwise (the heuristic below only compares
ASCII letters). -/
def pyLower (s : String) : String :=
  String.mk (s.toList.map Char.toLower)

/-- The rate-limit heuristic of `generate_response` (`rag_service.py:229`):
`"429" in error_str or "quota" in error_str.lower() or
"rate" in error_str.lower()`. -/
def is_rate_limit (e : String) : Bool :=
  pyIn "429" e || pyIn "quota" (pyLower e) || pyIn "rate" (pyLower e)

/-- The fixed refusal string returned by `generate_response`
(`rag_service.py:222` and `rag_service.py:239`). -/
def no_info_msg : String := "Information not found in the book"

/-- The fixed rate-limit message (`rag_service.py:230`). -/
def high_demand_msg : String :=
  "I\x27m currently experiencing high demand. Please try again in a few moments. (API rate limit reached)"

/-- The best-effort message built from source titles (`rag_service.py:237`). -/
def best_effort_msg (titles : List String) : String :=
  "I found relevant information in: " ++ String.intercalate ", " titles ++
    ". However, I couldn\x27t generate a full response due to a temporary issue. Please try again."

/-- The titles `generate_response` draws on in its best-effort branch
(`rag_service.py:234-235`): the `title` metadata of the first three context
items, with empty titles filtered out. -/
def nonempty_titles (ctx : List ContextItem) : List String :=
  ((ctx.take 3).map (fun it => metaGetStr it.metadata "title" "")).filter
    (fun t => t ≠ "")

/-- The system prompt f-string of `generate_response`
(`rag_service.py:190-199`). -/
def mk_system_prompt (combinedContext : String) : String :=
  "\n            You are an assistant focused specifically on the Physical AI & Robotics course content.\n            Answer the user\x27s question based ONLY on the information provided in the context from the course materials.\n            If the context does not contain relevant information to answer the question,\n            please respond with \"Information not found in the course content\".\n            If the question is not related to the course content, politely explain that you can only answer questions about the Physical AI & Robotics course.\n\n            Context:\n            "
    ++ combinedContext ++ "\n            "

/-- The message list submitted to the completion API
(`rag_service.py:180-212`): the system prompt built over the non-empty
context contents, then the chat history, then the current query. -/
def mk_messages (query : String) (ctx : List ContextItem)
    (hist : List ChatMsg) : List ChatMsg :=
  let contextParts := ctx.filterMap (fun it =>
    if it.content ≠ "" then some ("Context: " ++ it.content) else none)
  let combinedContext := String.intercalate "\n\n" contextParts
  ⟨"system", mk_system_prompt combinedContext⟩ ::
    (hist ++ [⟨"user", query⟩])

/-- `RAGService.generate_response` (`rag_service.py:177-239`).  The LiteLLM
completion call is the oracle `llmO`, applied to exactly the message list the
code submits. -/
def generate_response (query : String) (context_items : List ContextItem)
    (chat_history : List ChatMsg) (llmO : List ChatMsg → LLMResult) : String :=
  match llmO (mk_messages query context_items chat_history) with
  | LLMResult.ok t =>
      match t with
      | some s => if s ≠ "" then s else no_info_msg
      | none => no_info_msg
  | LLMResult.error e =>
      if is_rate_limit e then high_demand_msg
      else
        let titles := nonempty_titles context_items
        if titles ≠ [] then best_effort_msg titles else no_info_msg

set_option linter.unusedVariables false in
/-- `RAGService.process_query` (`rag_service.py:241-256`).  The history
lookup for `thread_id` is an unimplemented branch in the source (the comment
announces a database load, the body is `pass`), so the history that reaches
the generator is always the empty list initialised before it. -/
def process_query (query mode : String) (selected_text : Option String)
    (thread_id : Option String) (embedO : String → Except String (List Int))
    (backendO : List Int → Int → Except String (List QPoint))
    (llmO : List ChatMsg → LLMResult) : String × List ContextItem :=
  let context_items := retrieve_context query mode selected_text default_limit embedO backendO
  let chat_history : List ChatMsg := []
  (generate_response query context_items chat_history llmO, context_items)

/-! ### Chunker

`DocumentService._chunk_document` (`document_service.py:123-169`) and
`RAGService._chunk_document` (`rag_service.py:60-88`) run the same loop;
the former also records a dense `order` for each emitted chunk.  The loop
is embedded with explicit fuel; one iteration always advances `start` by at
least one character when `chunk_size` is positive, so fuel equal to the
content length suffices (proved below). -/

/-- The whitespace set of Python `str.strip()`. -/
def isSpaceChar (c : Char) : Bool :=
  c = ' ' || c = '\t' || c = '\n' || c = '\r' || c = '\x0b' || c = '\x0c'

/-- Python `s.strip()` on a character list. -/
def pyStrip (l : List Char) : List Char :=
  ((l.dropWhile isSpaceChar).reverse.dropWhile isSpaceChar).reverse

/-- Python indexing `content[i]` for a possibly negative index, as used by
`content[i-1]` in the paragraph scan (a negative index wraps around). -/
def pyGetChar (l : List Char) (i : Int) : Char :=
  if 0 ≤ i then l.getD i.toNat '\x00'
  else l.getD (l.length - (-i).toNat) '\x00'

/-- Is `c` one of the sentence terminators scanned for (`'.!?'`)? -/
def isSentenceChar (c : Char) : Bool :=
  c = '.' || c = '!' || c = '?'

/-- The boundary adjustment of one chunking iteration
(`document_service.py:139-154`): from the raw boundary `start + size`, scan
up to 200 characters forward for a sentence terminator and cut right after
it; otherwise scan the same window for a paragraph break (a newline whose
predecessor is a newline) and cut right after it; otherwise keep the raw
boundary.  No scan happens when the raw boundary already reaches the end. -/
def cutPoint (l : List Char) (size start : Nat) : Nat :=
  let e := start + size
  if e < l.length then
    let stop := min (e + 200) l.length
    match (List.range' e (stop - e)).find? (fun i => isSentenceChar (l.getD i ' ')) with
    | some i => i + 1
    | none =>
        match (List.range' e (stop - e)).find?
            (fun i => l.getD i ' ' = '\n' && pyGetChar l ((i : Int) - 1) = '\n') with
        | some i => i + 1
        | none => e
  else e

/-- One emitted chunk: the source span `[start, stop)` it was cut from, its
stripped text, and its `order` index. -/
structure RChunk where
  start : Nat
  stop : Nat
  content : List Char
  order : Nat
deriving DecidableEq

/-- The chunking loop, with fuel.  Each iteration cuts `[start, e)` at
`e := cutPoint l size start`, strips the slice, emits it when non-empty
(with the next dense order index), and continues from `e`. -/
def chunkAux (l : List Char) (size : Nat) : Nat → Nat → Nat → List RChunk
  | 0, _, _ => []
  | fuel + 1, start, order =>
      if start < l.length then
        let e := cutPoint l size start
        let t := pyStrip ((l.drop start).take (e - start))
        if t ≠ [] then
          ⟨start, e, t, order⟩ :: chunkAux l size fuel e (order + 1)
        else
          chunkAux l size fuel e order
      else []

/-- `_chunk_document(content, chunk_size)`: run the loop from offset 0 with
fuel `content.length`, which suffices for a positive `chunk_size`. -/
def chunk_document (l : List Char) (size : Nat) : List RChunk :=
  chunkAux l size l.length 0 0

/-! ### Embedding service

`EmbeddingService` (`embedding_service.py`).  The Cohere client is the
oracle: `f` is the per-text embedding the service would return and
`ApiOutcome` says whether the remote call succeeds; on success the batch
endpoint returns one embedding per input, in order (its documented
contract). -/

/-- Whether a call to the embedding API succeeds or raises. -/
inductive ApiOutcome where
  | ok
  | fail (e : String)
deriving DecidableEq

/-- The fallback `[0.0] * 1024` (`embedding_service.py:41`). -/
def zero_vec : List Int := List.replicate 1024 0

/-- The Cohere `embed` endpoint as an oracle: on success, one embedding per
input text in order; on failure, the raised exception. -/
def co_embed (f : String → List Int) (r : ApiOutcome) (texts : List String) :
    Except String (List (List Int)) :=
  match r with
  | ApiOutcome.ok => Except.ok (texts.map f)
  | ApiOutcome.fail e => Except.error e

/-- `EmbeddingService.embed_text` (`embedding_service.py:20-41`): embed a
single text, returning `embeddings[0]`; any exception (including an
out-of-range index) yields the zero vector. -/
def embed_text (f : String → List Int) (r : ApiOutcome) (text : String) :
    List Int :=
  match co_embed f r [text] with
  | Except.ok (e₀ :: _) => e₀
  | Except.ok [] => zero_vec
  | Except.error _ => zero_vec

/-- `EmbeddingService.embed_documents` (`embedding_service.py:43-64`): embed
a batch, returning the response embeddings; on failure, one zero vector per
input (`[[0.0] * 1024 for _ in range(len(documents))]`). -/
def embed_documents (f : String → List Int) (r : ApiOutcome)
    (documents : List String) : List (List Int) :=
  match co_embed f r documents with
  | Except.ok es => es
  | Except.error _ => documents.map (fun _ => zero_vec)

/-! ### Vector index

`VectorStore` (`vector_store.py`).  The Qdrant collection is modelled as an
association list from point id to stored point; `upsert` is the backend's
documented insert-or-replace keyed by point id. -/

/-- A stored point: vector, payload `content`, payload `metadata`, and the
payload field `original_doc_id` that `add_document` records. -/
structure VPoint where
  vector : List Int
  content : String
  metadata : Meta
  original_doc_id : String
deriving DecidableEq

/-- The collection: point id to stored point. -/
abbrev Index := List (String × VPoint)

/-- Modelled upsert semantics of the Qdrant backend: replace the point
stored under `k` when present, otherwise append a new point. -/
def upsert_point (idx : Index) (k : String) (v : VPoint) : Index :=
  if k ∈ idx.map Prod.fst then
    idx.map (fun p => if p.1 = k then (k, v) else p)
  else idx ++ [(k, v)]

/-- `VectorStore._generate_uuid` (`vector_store.py:82-85`) is
`str(uuid.uuid5(uuid.NAMESPACE_DNS, doc_id))`: a fixed deterministic
derivation, modelled as an abstract function of the id string. -/
abbrev UuidFn := String → String

/-- `VectorStore.add_document` (`vector_store.py:87-115`): upsert one point
under the uuid derived from `doc_id`, with payload
`{content, metadata, original_doc_id: doc_id}`. -/
def vs_add_document (u : UuidFn) (idx : Index) (doc_id content : String)
    (embedding : List Int) (metadata : Meta) : Index :=
  upsert_point idx (u doc_id) ⟨embedding, content, metadata, doc_id⟩

/-- `VectorStore.delete_document` (`vector_store.py:184-195`): delete by the
raw `doc_id` string, without the uuid derivation used on insertion. -/
def vs_delete_document (idx : Index) (doc_id : String) : Index :=
  idx.filter (fun p => p.1 ≠ doc_id)

/-- The chunk texts produced by `RAGService._chunk_document`
(`rag_service.py:60-88`): the same loop as the document-service chunker,
keeping only the text of each chunk. -/
def rag_chunks (content : String) : List String :=
  (chunk_document content.toList 1000).map (fun ch => String.mk ch.content)

/-- One iteration of the ingestion loop of `RAGService.add_document`
(`rag_service.py:106-124`): chunk `i` with text `p.2` is stored under the
chunk id `doc_id ++ "_chunk_" ++ i` with its metadata dict. -/
def rag_step (u : UuidFn) (doc_id title source_type : String)
    (f : String → List Int) (acc : Index) (p : Nat × String) : Index :=
  let chunk_doc_id := doc_id ++ "_chunk_" ++ toString p.1
  vs_add_document u acc chunk_doc_id p.2 (f p.2)
    [("document_id", MetaVal.s doc_id),
     ("chunk_id", MetaVal.s chunk_doc_id),
     ("title", MetaVal.s title),
     ("source_type", MetaVal.s source_type),
     ("chunk_order", MetaVal.i (p.1 : Int))]

/-- `RAGService.add_document` (`rag_service.py:90-129`): chunk the content,
embed each chunk (oracle `f`), and upsert each chunk under the derived id of
`doc_id ++ "_chunk_" ++ i`. -/
def rag_add_document (u : UuidFn) (idx : Index) (doc_id title content source_type : String)
    (f : String → List Int) : Index :=
  ((rag_chunks content).enum).foldl (rag_step u doc_id title source_type f) idx

/-- One iteration of the chunk loop of `DocumentService.create_document`
(`document_service.py:68-85`): chunk `ch` carries a fresh `uuid.uuid4()` id
drawn at its creation (`document_service.py:159`), modelled by the supply
`ids` indexed by the chunk's dense order; the chunk is upserted under the
derived id of that chunk id with metadata `{document_id, chunk_order}`. -/
def doc_step (u : UuidFn) (ids : List String) (doc_id : String)
    (f : String → List Int) (acc : Index) (ch : RChunk) : Index :=
  let cid := ids.getD ch.order ""
  let text := String.mk ch.content
  vs_add_document u acc cid text (f text)
    [("document_id", MetaVal.s doc_id),
     ("chunk_order", MetaVal.i (ch.order : Int))]

set_option linter.unusedVariables false in
/-- `DocumentService.create_document` (`document_service.py:49-93`) with its
relational side.  The documents table is modelled by its primary-key column
`db` (`documents.id`, `database_models.py:35`).  The new Document row is
added and committed before any chunking (`document_service.py:51-59`):
committing a `doc_id` already present violates the primary key, the raised
error is caught by the surrounding handler (`document_service.py:90-93`),
the session rolls back, and `"ERROR"` is returned without chunking or
touching the vector index.  Otherwise the row is recorded, the content is
chunked, embedded (oracle `f`) and each chunk upserted, and `"INDEXED"` is
returned.  The result is (status, documents table, vector index). -/
def doc_create_document (u : UuidFn) (ids : List String) (db : List String)
    (idx : Index) (doc_id title content source_type : String)
    (f : String → List Int) : String × List String × Index :=
  if doc_id ∈ db then
    ("ERROR", db, idx)
  else
    ("INDEXED", db ++ [doc_id],
      (chunk_document content.toList 1000).foldl (doc_step u ids doc_id f) idx)

/-- Insert-if-absent on a key list: the effect of one upsert on the set of
point ids in the collection. -/
def key_insert (K : List String) (k : String) : List String :=
  if k ∈ K then K else K ++ [k]

/-- The effect of a sequence of upserts on the key list. -/
def keys_fold (ks : List String) (K : List String) : List String :=
  ks.foldl key_insert K

/-- The derived point ids that one `RAGService.add_document` ingestion of a
given chunk list touches. -/
def rag_point_ids (u : UuidFn) (doc_id : String) (ps : List (Nat × String)) :
    List String :=
  ps.map (fun p => u (doc_id ++ "_chunk_" ++ toString p.1))

/-! ### Lemmas about stripping -/

lemma dropWhile_head?_false {p : Char → Bool} {l : List Char} {x : Char}
    (h : (l.dropWhile p).head? = some x) : p x = false := by
  have hd := List.head?_dropWhile_not p l
  rw [h] at hd
  exact hd

lemma dropWhile_of_head?_false {p : Char → Bool} {l : List Char} {x : Char}
    (hh : l.head? = some x) (hx : p x = false) : l.dropWhile p = l := by
  cases l with
  | nil => rfl
  | cons a t =>
      simp only [List.head?_cons, Option.some.injEq] at hh
      subst hh
      simp [List.dropWhile_cons, hx]

lemma dropWhile_idem (p : Char → Bool) (l : List Char) :
    (l.dropWhile p).dropWhile p = l.dropWhile p := by
  cases hh : (l.dropWhile p).head? with
  | none =>
      have : l.dropWhile p = [] := List.head?_eq_none_iff.mp hh
      simp [this]
  | some x => exact dropWhile_of_head?_false hh (dropWhile_head?_false hh)

lemma getLast?_dropWhile (p : Char → Bool) (l : List Char) :
    l.dropWhile p = [] ∨ (l.dropWhile p).getLast? = l.getLast? := by
  induction l with
  | nil => exact Or.inl rfl
  | cons a t ih =>
      by_cases hp : p a = true
      · rw [List.dropWhile_cons, if_pos hp]
        by_cases hnil : t.dropWhile p = []
        · exact Or.inl hnil
        · right
          rcases ih with h | h
          · exact absurd h hnil
          · rw [h]
            cases t with
            | nil => simp [List.dropWhile_nil] at hnil
            | cons b t' => rw [List.getLast?_cons_cons]
      · rw [List.dropWhile_cons, if_neg hp]
        exact Or.inr rfl

/-- `str.strip()` is idempotent: an emitted chunk is already stripped. -/
lemma pyStrip_idem (l : List Char) : pyStrip (pyStrip l) = pyStrip l := by
  unfold pyStrip
  generalize hu : l.dropWhile isSpaceChar = u
  by_cases hv0 : u.reverse.dropWhile isSpaceChar = []
  · rw [hv0]; simp
  · obtain ⟨x, hx⟩ : ∃ x, u.head? = some x := by
      cases hxx : u.head? with
      | none =>
          rw [List.head?_eq_none_iff.mp hxx] at hv0
          simp at hv0
      | some y => exact ⟨y, rfl⟩
    have hxs : isSpaceChar x = false :=
      dropWhile_head?_false (p := isSpaceChar) (l := l) (by rw [hu]; exact hx)
    have hlast : (u.reverse.dropWhile isSpaceChar).getLast? = some x := by
      rcases getLast?_dropWhile isSpaceChar u.reverse with h | h
      · exact absurd h hv0
      · rw [h, List.getLast?_reverse, hx]
    have hhead : ((u.reverse.dropWhile isSpaceChar).reverse).head? = some x := by
      rw [List.head?_reverse]; exact hlast
    have h1 : ((u.reverse.dropWhile isSpaceChar).reverse).dropWhile isSpaceChar
        = (u.reverse.dropWhile isSpaceChar).reverse :=
      dropWhile_of_head?_false hhead hxs
    rw [h1, List.reverse_reverse, dropWhile_idem]

/-! ### Lemmas about the chunking loop -/

lemma lt_cutPoint (l : List Char) {size : Nat} (hsz : 0 < size) (start : Nat) :
    start < cutPoint l size start := by
  unfold cutPoint
  have he : start < start + size := Nat.lt_add_of_pos_right hsz
  by_cases hlen : start + size < l.length
  · simp only [hlen, if_true]
    cases h1 : (List.range' (start + size) (min (start + size + 200) l.length - (start + size))).find?
        (fun i => isSentenceChar (l.getD i ' ')) with
    | some i =>
        have hi : start + size ≤ i :=
          (List.mem_range'_1.mp (List.mem_of_find?_eq_some h1)).1
        simp only [h1]
        omega
    | none =>
        simp only [h1]
        cases h2 : (List.range' (start + size) (min (start + size + 200) l.length - (start + size))).find?
            (fun i => l.getD i ' ' = '\n' && pyGetChar l ((i : Int) - 1) = '\n') with
        | some i =>
            have hi : start + size ≤ i :=
              (List.mem_range'_1.mp (List.mem_of_find?_eq_some h2)).1
            simp only [h2]
            omega
        | none => simp only [h2]; exact he
  · simp only [hlen, if_false]
    exact he

/-- The combined invariant of the chunking loop: every emitted chunk starts
at or after the loop position, spans a non-trivial interval, is stripped and
non-empty; consecutive chunks occupy disjoint, increasing spans; and the
order indices are consecutive from the loop counter. -/
lemma chunkAux_inv (l : List Char) {size : Nat} (hsz : 0 < size) :
    ∀ fuel start order, l.length ≤ start + fuel →
      (∀ ch ∈ chunkAux l size fuel start order,
          start ≤ ch.start ∧ ch.start < ch.stop ∧
          pyStrip ch.content = ch.content ∧ ch.content ≠ []) ∧
      (chunkAux l size fuel start order).Pairwise (fun a b => a.stop ≤ b.start) ∧
      (chunkAux l size fuel start order).map RChunk.order =
        List.range' order (chunkAux l size fuel start order).length := by
  intro fuel
  induction fuel with
  | zero => intro start order _; simp [chunkAux]
  | succ n ih =>
      intro start order hfuel
      by_cases hs : start < l.length
      · have hcut : start < cutPoint l size start := lt_cutPoint l hsz start
        have hfuel' : l.length ≤ cutPoint l size start + n := by omega
        have ih1 := fun o => (ih (cutPoint l size start) o hfuel').1
        have ih2 := fun o => (ih (cutPoint l size start) o hfuel').2.1
        have ih3 := fun o => (ih (cutPoint l size start) o hfuel').2.2
        by_cases ht :
            pyStrip ((l.drop start).take (cutPoint l size start - start)) ≠ []
        · have heq : chunkAux l size (n + 1) start order =
              ⟨start, cutPoint l size start,
                pyStrip ((l.drop start).take (cutPoint l size start - start)),
                order⟩ :: chunkAux l size n (cutPoint l size start) (order + 1) := by
            simp only [chunkAux, if_pos hs, if_pos ht]
          rw [heq]
          refine ⟨?_, ?_, ?_⟩
          · intro ch hch
            rcases List.mem_cons.mp hch with rfl | hch
            · exact ⟨Nat.le_refl _, hcut, pyStrip_idem _, ht⟩
            · obtain ⟨ha, hb, hc, hd⟩ := (ih1 (order + 1)) ch hch
              exact ⟨Nat.le_trans (Nat.le_of_lt hcut) ha, hb, hc, hd⟩
          · refine List.pairwise_cons.mpr ⟨?_, ih2 (order + 1)⟩
            intro b hb
            exact ((ih1 (order + 1)) b hb).1
          · simp only [List.map_cons, List.length_cons, ih3 (order + 1)]
            rw [List.range'_succ]
        · have heq : chunkAux l size (n + 1) start order =
              chunkAux l size n (cutPoint l size start) order := by
            simp only [chunkAux, if_pos hs, if_neg ht]
          rw [heq]
          refine ⟨?_, ih2 order, ih3 order⟩
          intro ch hch
          obtain ⟨ha, hb, hc, hd⟩ := (ih1 order) ch hch
          exact ⟨Nat.le_trans (Nat.le_of_lt hcut) ha, hb, hc, hd⟩
      · simp [chunkAux, if_neg hs]

lemma chunkAux_stop (l : List Char) (size fuel start order : Nat)
    (h : ¬ start < l.length) : chunkAux l size fuel start order = [] := by
  cases fuel with
  | zero => rfl
  | succ n => simp [chunkAux, h]

/-! ### Claim theorems -/

/-- Claim C2: for a positive target size, the chunker (which walks the
content in `target_size` segments, scanning up to 200 characters past each
raw boundary for a sentence terminator, then for a paragraph break, then
cutting at the raw offset) emits only chunks that are trimmed and non-empty;
their order values are the dense sequence `0..k-1`; their source spans are
pairwise non-overlapping and non-trivial; and content shorter than the
target size yields the single chunk of its trimmed text when that is
non-empty. -/
theorem chunk_document_spec (l : List Char) (size : Nat) (hsz : 0 < size) :
    (∀ ch ∈ chunk_document l size,
        pyStrip ch.content = ch.content ∧ ch.content ≠ [] ∧ ch.start < ch.stop) ∧
    (chunk_document l size).map RChunk.order =
      List.range (chunk_document l size).length ∧
    (chunk_document l size).Pairwise (fun a b => a.stop ≤ b.start) ∧
    (l.length < size → pyStrip l ≠ [] →
      chunk_document l size = [⟨0, size, pyStrip l, 0⟩]) := by
  obtain ⟨h1, h2, h3⟩ := chunkAux_inv l hsz l.length 0 0 (by omega)
  refine ⟨?_, ?_, h2, ?_⟩
  · intro ch hch
    obtain ⟨_, hb, hc, hd⟩ := h1 ch hch
    exact ⟨hc, hd, hb⟩
  · rw [List.range_eq_range' _]
    exact h3
  · intro hlen hne
    have hl0 : l ≠ [] := by
      intro h0
      rw [h0] at hne
      simp [pyStrip] at hne
    have hpos : 0 < l.length := List.length_pos.mpr hl0
    obtain ⟨m, hm⟩ : ∃ m, l.length = m + 1 := ⟨l.length - 1, by omega⟩
    have hcut : cutPoint l size 0 = size := by
      have hno : ¬ (0 + size < l.length) := by omega
      simp only [cutPoint]
      rw [if_neg hno]
      omega
    have htake : l.take size = l := List.take_of_length_le (by omega)
    rw [chunk_document, hm]
    have hstep : chunkAux l size (m + 1) 0 0 =
        ⟨0, size, pyStrip l, 0⟩ :: chunkAux l size m size 1 := by
      simp only [chunkAux, if_pos hpos, hcut, List.drop_zero, Nat.sub_zero, htake, ne_eq]
      rw [if_pos hne]
    rw [hstep, chunkAux_stop l size m size 1 (by omega)]

/-- Claim C2 witness. -/
theorem chunk_document_spec_witness :
    (0 < 4) ∧
    ((∀ ch ∈ chunk_document "Hi one. Bye two.".toList 4,
        pyStrip ch.content = ch.content ∧ ch.content ≠ [] ∧ ch.start < ch.stop) ∧
    (chunk_document "Hi one. Bye two.".toList 4).map RChunk.order =
      List.range (chunk_document "Hi one. Bye two.".toList 4).length ∧
    (chunk_document "Hi one. Bye two.".toList 4).Pairwise (fun a b => a.stop ≤ b.start) ∧
    (("Hi one. Bye two.".toList).length < 4 → pyStrip "Hi one. Bye two.".toList ≠ [] →
      chunk_document "Hi one. Bye two.".toList 4 = [⟨0, 4, pyStrip "Hi one. Bye two.".toList, 0⟩])) :=
  ⟨by decide, chunk_document_spec "Hi one. Bye two.".toList 4 (by decide)⟩

/-- Claim C1: in `selected_text` mode with a provided (per the API contract,
non-blank) selected text `t`, the retriever returns exactly one context item
wrapping `t` verbatim, with similarity score 1.0 and the fixed sentinel
document id, for every query and without consulting the embedding service or
the vector index (the result is independent of both oracles). -/
theorem retrieve_context_selected_text (q t : String) (ht : t ≠ "") (lim : Int)
    (embedO : String → Except String (List Int))
    (backendO : List Int → Int → Except String (List QPoint)) :
    retrieve_context q "selected_text" (some t) lim embedO backendO =
      [{ document_id := "selected_text", content := t,
         metadata := [("source_type", MetaVal.s "USER_SELECTION")],
         similarity_score := 1 }] := by
  rw [retrieve_context, if_pos]
  · simp
  · exact ⟨rfl, by simp [strTruthy, ht]⟩

/-- Claim C1 witness. -/
theorem retrieve_context_selected_text_witness :
    ("hello" ≠ "") ∧
    retrieve_context "any query" "selected_text" (some "hello") 5
        (fun _ => Except.error "down") (fun _ _ => Except.error "down") =
      [{ document_id := "selected_text", content := "hello",
         metadata := [("source_type", MetaVal.s "USER_SELECTION")],
         similarity_score := 1 }] :=
  ⟨by decide,
   retrieve_context_selected_text "any query" "hello" (by decide) 5
     (fun _ => Except.error "down") (fun _ _ => Except.error "down")⟩

/-- Claim C9: with mode `selected_text` but `selected_text` equal to `None`
or the empty string, the retriever does not return the selected-text
pseudo-result: it behaves exactly as the full-collection branch, embedding
the query and mapping the vector search hits. -/
theorem retrieve_context_selected_text_empty_falls_through (q : String)
    (lim : Int) (embedO : String → Except String (List Int))
    (backendO : List Int → Int → Except String (List QPoint)) :
    retrieve_context q "selected_text" none lim embedO backendO =
      retrieve_context q "full_book" none lim embedO backendO ∧
    retrieve_context q "selected_text" (some "") lim embedO backendO =
      retrieve_context q "full_book" none lim embedO backendO ∧
    (∀ v, embedO q = Except.ok v →
      retrieve_context q "selected_text" none lim embedO backendO =
        (vs_search v lim backendO).map to_context_item) := by
  refine ⟨?_, ?_, ?_⟩
  · rw [retrieve_context, retrieve_context, if_neg, if_neg]
    · simp
    · simp [strTruthy]
  · rw [retrieve_context, retrieve_context, if_neg, if_neg]
    · simp
    · simp [strTruthy]
  · intro v hv
    rw [retrieve_context, if_neg, hv]
    simp [strTruthy]

/-- Claim C9 witness. -/
theorem retrieve_context_selected_text_empty_falls_through_witness :
    retrieve_context "q" "selected_text" none 5
        (fun _ => Except.ok [2]) (fun _ _ => Except.ok []) =
      (vs_search [2] 5 (fun _ _ => Except.ok [])).map to_context_item :=
  (retrieve_context_selected_text_empty_falls_through "q" 5
      (fun _ => Except.ok [2]) (fun _ _ => Except.ok [])).2.2 [2] rfl

/-- Claim C4: in full-collection mode, an embedding failure, a search
failure, or an empty search result each yield the empty context sequence
(the retriever is a total function, so it never raises); and the vector
store search itself returns the empty sequence, rather than raising, when
the backend is unavailable. -/
theorem retrieve_context_degrades_to_empty (q : String) (lim : Int)
    (emb : List Int) (e : String)
    (embedO : String → Except String (List Int))
    (backendO : List Int → Int → Except String (List QPoint)) :
    (embedO q = Except.error e →
      retrieve_context q "full_book" none lim embedO backendO = []) ∧
    (embedO q = Except.ok emb → backendO emb lim = Except.error e →
      retrieve_context q "full_book" none lim embedO backendO = []) ∧
    (embedO q = Except.ok emb → backendO emb lim = Except.ok [] →
      retrieve_context q "full_book" none lim embedO backendO = []) ∧
    (backendO emb lim = Except.error e → vs_search emb lim backendO = []) := by
  refine ⟨?_, ?_, ?_, ?_⟩
  · intro h
    rw [retrieve_context, if_neg (by simp), h]
  · intro h1 h2
    rw [retrieve_context, if_neg (by simp), h1]
    simp [vs_search, h2]
  · intro h1 h2
    rw [retrieve_context, if_neg (by simp), h1]
    simp [vs_search, h2]
  · intro h
    simp [vs_search, h]

/-- Claim C4 witness. -/
theorem retrieve_context_degrades_to_empty_witness :
    retrieve_context "q" "full_book" none 5
        (fun _ => Except.error "cohere down") (fun _ _ => Except.ok []) = [] :=
  (retrieve_context_degrades_to_empty "q" 5 [] "cohere down"
      (fun _ => Except.error "cohere down") (fun _ _ => Except.ok [])).1 rfl

/-- Claim C3 counterexample: a provider error that is not rate-limit-shaped,
with one retrieved context item whose metadata carries no non-empty title
(exactly what the selected-text branch produces), yields the fixed refusal
string, not a best-effort string naming source titles — so clause (3) of the
claim, which promises the best-effort string whenever at least one context
item was retrieved, is false as stated. -/
theorem generate_response_untitled_context_cex :
    ([({ document_id := "selected_text", content := "some passage",
         metadata := [("source_type", MetaVal.s "USER_SELECTION")],
         similarity_score := 1 } : ContextItem)] ≠ ([] : List ContextItem)) ∧
    is_rate_limit "boom" = false ∧
    generate_response "q"
        [{ document_id := "selected_text", content := "some passage",
           metadata := [("source_type", MetaVal.s "USER_SELECTION")],
           similarity_score := 1 }] []
        (fun _ => LLMResult.error "boom") = no_info_msg ∧
    pyIn "I found relevant information in" no_info_msg = false := by
  exact ⟨List.cons_ne_nil _ _, by decide, by decide, by decide⟩

/-- Claim C3 (amended): the generator is a total function into strings, and
its failure policy is, first match wins: a successful completion with
non-empty text is returned as-is; an empty or absent completion text yields
the fixed refusal string; a provider error whose text matches the rate-limit
heuristic yields the fixed high-demand message; any other provider error
yields the best-effort string naming the (up to 3) non-empty source titles
of the context metadata when at least one such title exists, and otherwise
the fixed refusal string. -/
theorem generate_response_policy (q : String) (ctx : List ContextItem)
    (hist : List ChatMsg) (llmO : List ChatMsg → LLMResult) :
    (∀ s, llmO (mk_messages q ctx hist) = LLMResult.ok (some s) → s ≠ "" →
      generate_response q ctx hist llmO = s) ∧
    (llmO (mk_messages q ctx hist) = LLMResult.ok none ∨
        llmO (mk_messages q ctx hist) = LLMResult.ok (some "") →
      generate_response q ctx hist llmO = no_info_msg) ∧
    (∀ e, llmO (mk_messages q ctx hist) = LLMResult.error e →
      is_rate_limit e = true →
      generate_response q ctx hist llmO = high_demand_msg) ∧
    (∀ e, llmO (mk_messages q ctx hist) = LLMResult.error e →
      is_rate_limit e = false → nonempty_titles ctx ≠ [] →
      generate_response q ctx hist llmO = best_effort_msg (nonempty_titles ctx)) ∧
    (∀ e, llmO (mk_messages q ctx hist) = LLMResult.error e →
      is_rate_limit e = false → nonempty_titles ctx = [] →
      generate_response q ctx hist llmO = no_info_msg) := by
  refine ⟨?_, ?_, ?_, ?_, ?_⟩
  · intro s hs hne
    rw [generate_response, hs]
    simp [hne]
  · intro h
    rcases h with h | h
    · rw [generate_response, h]
    · rw [generate_response, h]
      simp
  · intro e he hrl
    rw [generate_response, he]
    simp [hrl]
  · intro e he hrl hne
    rw [generate_response, he]
    simp [hrl, hne]
  · intro e he hrl hti
    rw [generate_response, he]
    simp [hrl, hti]

/-- Claim C3 witness. -/
theorem generate_response_policy_witness :
    generate_response "q" [] [] (fun _ => LLMResult.error "HTTP 429") =
      high_demand_msg :=
  (generate_response_policy "q" [] []
      (fun _ => LLMResult.error "HTTP 429")).2.2.1 "HTTP 429" rfl (by decide)

/-- Claim C6: for every thread id (session id), `process_query` invokes the
response generator with the empty history — the history lookup announced for
`thread_id` is an unimplemented `pass` stub — so prior session messages
never reach the generator. -/
theorem process_query_history_always_empty (q mode : String)
    (selected_text : Option String) (thread_id : Option String)
    (embedO : String → Except String (List Int))
    (backendO : List Int → Int → Except String (List QPoint))
    (llmO : List ChatMsg → LLMResult) :
    process_query q mode selected_text thread_id embedO backendO llmO =
      (generate_response q
        (retrieve_context q mode selected_text default_limit embedO backendO)
        [] llmO,
       retrieve_context q mode selected_text default_limit embedO backendO) := rfl

/-- Claim C7 counterexample: a call with `limit = 0` is not rejected: it is
processed as a normal retrieval — the limit is handed unchanged to the
vector search and the hits are mapped into context items. -/
theorem retrieve_context_limit_zero_cex :
    retrieve_context "q" "full_book" none 0
        (fun _ => Except.ok [1])
        (fun _ _ => Except.ok
          [{ id := "p1", content := "stuff",
             metadata := [("document_id", MetaVal.s "d1"),
                          ("title", MetaVal.s "T1"),
                          ("source_type", MetaVal.s "BOOK_FULL"),
                          ("chunk_order", MetaVal.i 0)],
             score := 1 }]) =
      [{ document_id := "d1", content := "stuff",
         metadata := [("title", MetaVal.s "T1"),
                      ("source_type", MetaVal.s "BOOK_FULL"),
                      ("chunk_order", MetaVal.i 0)],
         similarity_score := 1 }] ∧
    retrieve_context "q" "full_book" none 0
        (fun _ => Except.ok [1])
        (fun _ _ => Except.ok
          [{ id := "p1", content := "stuff",
             metadata := [("document_id", MetaVal.s "d1"),
                          ("title", MetaVal.s "T1"),
                          ("source_type", MetaVal.s "BOOK_FULL"),
                          ("chunk_order", MetaVal.i 0)],
             score := 1 }]) ≠ [] := by
  constructor
  · rfl
  · intro h
    simp [retrieve_context, strTruthy, vs_search, to_context_item] at h

set_option linter.unusedVariables false in
/-- Claim C7 (amended): `limit` defaults to 5, but no positivity validation
exists: a call with `limit ≤ 0` proceeds through the full-collection branch
exactly like any other call, passing the limit unchanged to the vector
search. -/
theorem retrieve_context_limit_unvalidated (q : String) (lim : Int)
    (hl : lim ≤ 0) (embedO : String → Except String (List Int))
    (backendO : List Int → Int → Except String (List QPoint)) :
    default_limit = 5 ∧
    retrieve_context q "full_book" none lim embedO backendO =
      (match embedO q with
        | Except.error _ => []
        | Except.ok qemb => (vs_search qemb lim backendO).map to_context_item) := by
  refine ⟨rfl, ?_⟩
  rw [retrieve_context, if_neg (by simp)]

/-- Claim C7 witness. -/
theorem retrieve_context_limit_unvalidated_witness :
    ((0 : Int) ≤ 0) ∧
    (default_limit = 5 ∧
    retrieve_context "q" "full_book" none 0
        (fun _ => Except.error "down") (fun _ _ => Except.ok []) =
      (match (fun _ => Except.error "down" : String → Except String (List Int)) "q" with
        | Except.error _ => []
        | Except.ok qemb => (vs_search qemb 0 (fun _ _ => Except.ok [])).map to_context_item)) :=
  ⟨by decide,
   retrieve_context_limit_unvalidated "q" 0 (by decide)
     (fun _ => Except.error "down") (fun _ _ => Except.ok [])⟩

/-- Claim C8: on embedding-service failure the single-text embed returns the
zero vector of dimension 1024 and the batch embed returns one zero vector
per input text; on success the batch result is the order-preserving, pointwise
image of the inputs (so its length matches the input count), and the
single-text embed returns that text's embedding. -/
theorem embedding_service_fallback (f : String → List Int) (t e : String)
    (ts : List String) :
    embed_text f (ApiOutcome.fail e) t = zero_vec ∧
    zero_vec = List.replicate 1024 0 ∧
    embed_documents f (ApiOutcome.fail e) ts = List.replicate ts.length zero_vec ∧
    embed_documents f ApiOutcome.ok ts = ts.map f ∧
    (embed_documents f ApiOutcome.ok ts).length = ts.length ∧
    embed_text f ApiOutcome.ok t = f t := by
  refine ⟨rfl, rfl, ?_, rfl, by simp [embed_documents, co_embed], rfl⟩
  simp [embed_documents, co_embed, List.map_const']

/-! ### Lemmas about the vector index key set -/

lemma upsert_point_keys (idx : Index) (k : String) (v : VPoint) :
    (upsert_point idx k v).map Prod.fst = key_insert (idx.map Prod.fst) k := by
  unfold upsert_point key_insert
  by_cases h : k ∈ idx.map Prod.fst
  · rw [if_pos h, if_pos h, List.map_map]
    apply List.map_congr_left
    intro p _
    by_cases hp : p.1 = k
    · simp [hp]
    · simp [hp]
  · rw [if_neg h, if_neg h, List.map_append]
    rfl

lemma mem_key_insert_self (K : List String) (k : String) : k ∈ key_insert K k := by
  unfold key_insert
  by_cases h : k ∈ K
  · rwa [if_pos h]
  · rw [if_neg h]
    simp

lemma mem_key_insert_of_mem {K : List String} {a : String} (k : String)
    (h : a ∈ K) : a ∈ key_insert K k := by
  unfold key_insert
  by_cases hk : k ∈ K
  · rwa [if_pos hk]
  · rw [if_neg hk]
    exact List.mem_append_left _ h

lemma key_insert_of_mem {K : List String} {k : String} (h : k ∈ K) :
    key_insert K k = K := if_pos h

lemma nodup_key_insert {K : List String} (k : String) (h : K.Nodup) :
    (key_insert K k).Nodup := by
  unfold key_insert
  by_cases hk : k ∈ K
  · rwa [if_pos hk]
  · rw [if_neg hk]
    simp [List.nodup_append, h, hk]

lemma mem_keys_fold_of_mem {K : List String} {a : String}
    (ks : List String) (h : a ∈ K) : a ∈ keys_fold ks K := by
  induction ks generalizing K with
  | nil => exact h
  | cons k ks ih => exact ih (mem_key_insert_of_mem k h)

lemma mem_keys_fold_of_mem_list {ks : List String} {k : String}
    (K : List String) (h : k ∈ ks) : k ∈ keys_fold ks K := by
  induction ks generalizing K with
  | nil => cases h
  | cons a ks ih =>
      rcases List.mem_cons.mp h with rfl | h
      · exact mem_keys_fold_of_mem ks (mem_key_insert_self K k)
      · exact ih _ h

lemma keys_fold_absorb {ks K : List String} (h : ∀ k ∈ ks, k ∈ K) :
    keys_fold ks K = K := by
  induction ks with
  | nil => rfl
  | cons a ks ih =>
      have ha : key_insert K a = K := key_insert_of_mem (h a (by simp))
      show keys_fold ks (key_insert K a) = K
      rw [ha]
      exact ih (fun k hk => h k (List.mem_cons_of_mem a hk))

lemma keys_fold_idem (ks K : List String) :
    keys_fold ks (keys_fold ks K) = keys_fold ks K :=
  keys_fold_absorb (fun _ hk => mem_keys_fold_of_mem_list K hk)

lemma nodup_keys_fold {K : List String} (ks : List String) (h : K.Nodup) :
    (keys_fold ks K).Nodup := by
  induction ks generalizing K with
  | nil => exact h
  | cons a ks ih => exact ih (nodup_key_insert a h)

lemma rag_step_keys (u : UuidFn) (d t s : String) (f : String → List Int)
    (acc : Index) (p : Nat × String) :
    (rag_step u d t s f acc p).map Prod.fst =
      key_insert (acc.map Prod.fst) (u (d ++ "_chunk_" ++ toString p.1)) :=
  upsert_point_keys acc _ _

lemma foldl_rag_step_keys (u : UuidFn) (d t s : String) (f : String → List Int) :
    ∀ (ps : List (Nat × String)) (idx : Index),
      ((ps.foldl (rag_step u d t s f) idx).map Prod.fst) =
        keys_fold (rag_point_ids u d ps) (idx.map Prod.fst) := by
  intro ps
  induction ps with
  | nil => intro idx; rfl
  | cons p ps ih =>
      intro idx
      show ((ps.foldl (rag_step u d t s f) (rag_step u d t s f idx p)).map Prod.fst) = _
      rw [ih (rag_step u d t s f idx p)]
      show _ = keys_fold (rag_point_ids u d ps)
        (key_insert (idx.map Prod.fst) (u (d ++ "_chunk_" ++ toString p.1)))
      rw [rag_step_keys]

lemma rag_add_document_keys (u : UuidFn) (idx : Index)
    (d t c s : String) (f : String → List Int) :
    (rag_add_document u idx d t c s f).map Prod.fst =
      keys_fold (rag_point_ids u d ((rag_chunks c).enum)) (idx.map Prod.fst) :=
  foldl_rag_step_keys u d t s f _ idx

lemma foldl_upsert_nodup {α : Type} (g : Index → α → Index)
    (hg : ∀ acc a, ∃ k v, g acc a = upsert_point acc k v) :
    ∀ (l : List α) (idx : Index), (idx.map Prod.fst).Nodup →
      ((l.foldl g idx).map Prod.fst).Nodup := by
  intro l
  induction l with
  | nil => intro idx h; exact h
  | cons a l ih =>
      intro idx h
      show ((l.foldl g (g idx a)).map Prod.fst).Nodup
      apply ih
      obtain ⟨k, v, hkv⟩ := hg idx a
      rw [hkv, upsert_point_keys]
      exact nodup_key_insert k h

/-- Claim C5: ingestion is idempotent, and re-ingesting a Document with the
same logical id never duplicates chunk ids in the index.  On the
`RAGService.add_document` path the chunk ids `doc_id ++ "_chunk_" ++ i` and
their uuid derivation are deterministic, so a second ingestion upserts the
very same point ids and overwrites: the point-id set after re-ingestion
equals the set after a single ingestion, each id present exactly once.  On
the `DocumentService.create_document` path, a first ingestion indexes the
document and records its id in the documents table, and a re-ingestion of
the same logical id aborts on the duplicate primary key before any chunking
or upsert, leaving the documents table and the index of the first ingestion
unchanged — the same set of chunk ids, still present exactly once each. -/
theorem ingestion_idempotent (u : UuidFn) (ids ids2 : List String)
    (db : List String) (idx : Index) (d t c s t2 s2 : String)
    (f f2 : String → List Int)
    (hn : (idx.map Prod.fst).Nodup) (hdb : d ∉ db) :
    (rag_add_document u (rag_add_document u idx d t c s f) d t c s f).map
        Prod.fst =
      (rag_add_document u idx d t c s f).map Prod.fst ∧
    ((rag_add_document u idx d t c s f).map Prod.fst).Nodup ∧
    (doc_create_document u ids db idx d t c s f).1 = "INDEXED" ∧
    d ∈ (doc_create_document u ids db idx d t c s f).2.1 ∧
    doc_create_document u ids2 (doc_create_document u ids db idx d t c s f).2.1
        (doc_create_document u ids db idx d t c s f).2.2 d t2 c s2 f2 =
      ("ERROR", (doc_create_document u ids db idx d t c s f).2.1,
        (doc_create_document u ids db idx d t c s f).2.2) ∧
    (((doc_create_document u ids db idx d t c s f).2.2).map Prod.fst).Nodup := by
  have hmem : d ∈ (doc_create_document u ids db idx d t c s f).2.1 := by
    simp [doc_create_document, hdb]
  refine ⟨?_, ?_, ?_, hmem, ?_, ?_⟩
  · simp only [rag_add_document_keys]
    exact keys_fold_idem _ _
  · rw [rag_add_document_keys]
    exact nodup_keys_fold _ hn
  · simp [doc_create_document, hdb]
  · conv_lhs => rw [doc_create_document]
    rw [if_pos hmem]
  · have h22 : (doc_create_document u ids db idx d t c s f).2.2 =
        (chunk_document c.toList 1000).foldl (doc_step u ids d f) idx := by
      simp [doc_create_document, hdb]
    rw [h22]
    exact foldl_upsert_nodup _ (fun acc ch => ⟨_, _, rfl⟩) _ _ hn

/-- Claim C5 witness. -/
theorem ingestion_idempotent_witness :
    ((([] : Index)).map Prod.fst).Nodup ∧ "doc1" ∉ ([] : List String) ∧
    ((rag_add_document (fun a => "u:" ++ a)
        (rag_add_document (fun a => "u:" ++ a) [] "doc1" "T" "Hi." "BOOK_FULL"
          (fun _ => zero_vec))
        "doc1" "T" "Hi." "BOOK_FULL" (fun _ => zero_vec)).map Prod.fst =
      (rag_add_document (fun a => "u:" ++ a) [] "doc1" "T" "Hi." "BOOK_FULL"
        (fun _ => zero_vec)).map Prod.fst ∧
    ((rag_add_document (fun a => "u:" ++ a) [] "doc1" "T" "Hi." "BOOK_FULL"
        (fun _ => zero_vec)).map Prod.fst).Nodup ∧
    (doc_create_document (fun a => "u:" ++ a) ["A"] [] [] "doc1" "T" "Hi."
        "BOOK_FULL" (fun _ => zero_vec)).1 = "INDEXED" ∧
    "doc1" ∈ (doc_create_document (fun a => "u:" ++ a) ["A"] [] [] "doc1" "T"
        "Hi." "BOOK_FULL" (fun _ => zero_vec)).2.1 ∧
    doc_create_document (fun a => "u:" ++ a) ["B"]
        (doc_create_document (fun a => "u:" ++ a) ["A"] [] [] "doc1" "T" "Hi."
          "BOOK_FULL" (fun _ => zero_vec)).2.1
        (doc_create_document (fun a => "u:" ++ a) ["A"] [] [] "doc1" "T" "Hi."
          "BOOK_FULL" (fun _ => zero_vec)).2.2 "doc1" "T" "Hi." "BOOK_FULL"
        (fun _ => zero_vec) =
      ("ERROR",
        (doc_create_document (fun a => "u:" ++ a) ["A"] [] [] "doc1" "T" "Hi."
          "BOOK_FULL" (fun _ => zero_vec)).2.1,
        (doc_create_document (fun a => "u:" ++ a) ["A"] [] [] "doc1" "T" "Hi."
          "BOOK_FULL" (fun _ => zero_vec)).2.2) ∧
    (((doc_create_document (fun a => "u:" ++ a) ["A"] [] [] "doc1" "T" "Hi."
        "BOOK_FULL" (fun _ => zero_vec)).2.2).map Prod.fst).Nodup) :=
  ⟨by decide, by decide,
   ingestion_idempotent (fun a => "u:" ++ a) ["A"] ["B"] [] [] "doc1" "T"
     "Hi." "BOOK_FULL" "T" "BOOK_FULL" (fun _ => zero_vec)
     (fun _ => zero_vec) (by decide) (by decide)⟩

/-- Claim C10: `add_document` stores the point under the uuid5-derived id of
`doc_id` while `delete_document` deletes by the raw `doc_id`; whenever the
derived id differs from the raw id, adding and then deleting the same
`doc_id` leaves the added point in the index. -/
theorem vs_add_then_delete_mismatch (u : UuidFn) (idx : Index)
    (doc_id content : String) (emb : List Int) (md : Meta)
    (h : u doc_id ≠ doc_id) :
    u doc_id ∈
      (vs_delete_document (vs_add_document u idx doc_id content emb md)
        doc_id).map Prod.fst := by
  have hmem : u doc_id ∈ (vs_add_document u idx doc_id content emb md).map Prod.fst := by
    rw [vs_add_document, upsert_point_keys]
    exact mem_key_insert_self _ _
  obtain ⟨q, hq, hq1⟩ := List.mem_map.mp hmem
  refine List.mem_map.mpr ⟨q, ?_, hq1⟩
  refine List.mem_filter.mpr ⟨hq, ?_⟩
  simp [hq1, h]

/-- Claim C10 witness. -/
theorem vs_add_then_delete_mismatch_witness :
    ((fun a => "uuid-" ++ a) "doc1" ≠ "doc1") ∧
    (fun a => "uuid-" ++ a) "doc1" ∈
      (vs_delete_document
        (vs_add_document (fun a => "uuid-" ++ a) [] "doc1" "c" [] [])
        "doc1").map Prod.fst :=
  ⟨by decide,
   vs_add_then_delete_mismatch (fun a => "uuid-" ++ a) [] "doc1" "c" [] []
     (by decide)⟩

end RagChat
